import Mathlib

/-!
Verification of the cli-wallet command layer (src/command/account.rs and
src/command/account_manager.rs) against its natural-language specification.

The two Rust modules are shallowly embedded: every command function becomes a
Lean function over an explicit environment `SdkEnv` that supplies the results
of the external SDK (`iota_wallet`) calls and of the external pure parsers
(`U256::from_dec_str`, `prefix_hex::decode`, `TokenId::from_str`,
`NftId::from_str`, `ClientOptions::with_node`).  A command computes in the
monad `M`, which records a trace of the observable events (SDK invocations
with their typed request payloads, log lines, entering the account prompt)
and an outcome (ok, propagated error, or panic).  Machine integers (`u64`,
`u32`) are modelled as `Nat`; no arithmetic is performed on them by the CLI.
-/

deriving instance DecidableEq for Except

/-- Errors produced by the external SDK and the external parsers.  They are
opaque to the CLI, which only converts them to its own error type; a message
string models them. -/
abbrev SdkError := String

/-- Modelled from the spec: the crate error type lives in src/error.rs, which
is not part of the corpus; only the command modules under src/ use it.  The
variants are exactly those the command code constructs (`NoAddressForFaucet`
and `Miscellanous`, both visible in src/command/account.rs) plus one variant
standing for every `From`-converted SDK error propagated by the question-mark
operator. -/
inductive Error where
  | noAddressForFaucet : Error
  | miscellanous : String → Error
  | sdk : SdkError → Error
deriving DecidableEq, Repr

/-- An account address as returned by `AccountHandle::list_addresses`.  The
bech32 rendering `address().to_bech32()` is kept as the stored string. -/
structure AccountAddress where
  bech32 : String
  keyIndex : Nat
  internal : Bool
deriving DecidableEq, Repr, Inhabited

/-- `AccountAddress::address().to_bech32()`. -/
def AccountAddress.toBech32 (a : AccountAddress) : String := a.bech32

/-- An entry of `AccountHandle::list_addresses_with_unspent_outputs`.  The
output ids are kept as their debug strings. -/
structure AddressWithUnspentOutputs where
  bech32 : String
  keyIndex : Nat
  internal : Bool
  amount : Nat
  outputIds : List String
deriving DecidableEq, Repr, Inhabited

/-- Debug rendering of an SDK value (`{:?}`); opaque to the CLI. -/
abbrev TransferResult := String

/-- Debug rendering of an account balance; opaque to the CLI. -/
abbrev AccountBalance := String

/-- Debug rendering of a transaction; opaque to the CLI. -/
abbrev Transaction := String

/-- A parsed `TokenId` (bee_block); opaque bytes produced by the external
`TokenId::from_str`. -/
structure TokenId where
  bytes : List Nat
deriving DecidableEq, Repr, Inhabited

/-- A parsed `NftId` (bee_block); opaque bytes produced by the external
`NftId::from_str`. -/
structure NftId where
  bytes : List Nat
deriving DecidableEq, Repr, Inhabited

/-- `iota_wallet::AddressWithAmount`, built by the `send` command. -/
structure AddressWithAmount where
  address : String
  amount : Nat
deriving DecidableEq, Repr

/-- `iota_wallet::AddressWithMicroAmount`, built by the `send-micro` command. -/
structure AddressWithMicroAmount where
  address : String
  amount : Nat
  returnAddress : Option String
  expiration : Option Nat
deriving DecidableEq, Repr

/-- `iota_wallet::AddressNativeTokens`, built by the `send-native-token`
command; the fields filled by `..Default::default()` are kept explicit. -/
structure AddressNativeTokens where
  address : String
  nativeTokens : List (TokenId × Nat)
  returnAddress : Option String
  expiration : Option Nat
deriving DecidableEq, Repr

/-- `iota_wallet::AddressAndNftId`, built by the `send-nft` command. -/
structure AddressAndNftId where
  address : String
  nftId : NftId
deriving DecidableEq, Repr

/-- `iota_wallet::NativeTokenOptions`, built by `mint_native_token_command`.
`U256` supplies is modelled as `Nat` (values below 2 to the 256 produced by
the external decimal parser). -/
structure NativeTokenOptions where
  accountAddress : Option String
  circulatingSupply : Nat
  maximumSupply : Nat
  foundryMetadata : Option (List Nat)
deriving DecidableEq, Repr

/-- `iota_wallet::NftOptions`, built by `mint_nft_command`. -/
structure NftOptions where
  address : Option String
  immutableMetadata : Option (List Nat)
  metadata : Option (List Nat)
deriving DecidableEq, Repr

/-- `iota_client::secret::SecretManager`.  The command code only distinguishes
the Stronghold variant from every other one, so the non-Stronghold variants
are represented by two representatives. -/
inductive SecretManager where
  | stronghold : SecretManager
  | ledgerNano : SecretManager
  | mnemonicBacked : SecretManager
deriving DecidableEq, Repr

/-- `iota_wallet::ClientOptions` as the command code uses it: a node url set
by `with_node` and the `with_node_sync_disabled` flag. -/
structure ClientOptions where
  node : Option String
  nodeSyncDisabled : Bool
deriving DecidableEq, Repr

/-- `ClientOptions::new()`. -/
def ClientOptions.new : ClientOptions := { node := none, nodeSyncDisabled := false }

/-- `ClientOptions::with_node_sync_disabled()`. -/
def ClientOptions.withNodeSyncDisabled (c : ClientOptions) : ClientOptions :=
  { c with nodeSyncDisabled := true }

/-- `iota_wallet::account::OutputsToCollect` (only `All` is used). -/
inductive OutputsToCollect where
  | all : OutputsToCollect
  | sdkDefault : OutputsToCollect
deriving DecidableEq, Repr

/-- `iota_wallet::account::SyncOptions`: the one field the code sets; the
remaining fields come from `Default::default()` and are left implicit. -/
structure SyncOptions where
  tryCollectOutputs : OutputsToCollect
deriving DecidableEq, Repr

/-- The account manager value returned by the builder; opaque to the CLI. -/
structure AccountManagerRepr where
  id : Nat
deriving DecidableEq, Repr

/-- The account handle returned by `create_account`; the CLI reads its alias. -/
structure AccountHandleRepr where
  aliasName : String
deriving DecidableEq, Repr

/-- `clap`-parsed `MnemonicAndUrl` arguments of the `init` command. -/
structure MnemonicAndUrl where
  mnemonic : Option String
  node : Option String
deriving DecidableEq, Repr

/-- The subcommand enum of src/command/account_manager.rs
(`AccountManagerCommand`). -/
inductive AccountManagerCommand where
  | init : MnemonicAndUrl → AccountManagerCommand
  | new : Option String → AccountManagerCommand
  | setNode : String → AccountManagerCommand
  | sync : AccountManagerCommand
deriving DecidableEq, Repr

/-- The top-level parser struct of src/command/account_manager.rs
(`AccountManagerCli`). -/
structure AccountManagerCli where
  command : Option AccountManagerCommand
  account : Option String
deriving DecidableEq, Repr

/-- The subcommand enum of src/command/account.rs (`AccountCommand`), with
the field types of the Rust declaration (`u64` as `Nat`). -/
inductive AccountCommand where
  | addresses : AccountCommand
  | balance : AccountCommand
  | consolidate : AccountCommand
  | exit : AccountCommand
  | faucet : Option String → Option String → AccountCommand
  | mintNativeToken : String → Option String → AccountCommand
  | mintNft : Option String → Option String → Option String → AccountCommand
  | newAddress : AccountCommand
  | send : String → Nat → AccountCommand
  | sendMicro : String → Nat → AccountCommand
  | sendNativeToken : String → String → String → AccountCommand
  | sendNft : String → String → AccountCommand
  | sync : AccountCommand
  | transactions : AccountCommand
deriving DecidableEq, Repr

/-- The per-account parser struct of src/command/account.rs (`AccountCli`). -/
structure AccountCli where
  command : AccountCommand
deriving DecidableEq, Repr

/-- A typed SDK request, one constructor per SDK entry point the command
layer invokes, carrying the request structures the code builds. -/
inductive SdkRequest where
  | listAddresses : SdkRequest
  | listAddressesWithUnspentOutputs : SdkRequest
  | getBalance : SdkRequest
  | consolidateOutputs : Bool → Option Unit → SdkRequest
  | requestFundsFromFaucet : String → String → SdkRequest
  | mintNativeToken : NativeTokenOptions → Option Unit → SdkRequest
  | mintNfts : List NftOptions → Option Unit → SdkRequest
  | generateAddresses : Nat → Option Unit → SdkRequest
  | sendAmount : List AddressWithAmount → Option Unit → SdkRequest
  | sendMicroTransaction : List AddressWithMicroAmount → Option Unit → SdkRequest
  | sendNativeTokens : List AddressNativeTokens → Option Unit → SdkRequest
  | sendNft : List AddressAndNftId → Option Unit → SdkRequest
  | syncAccount : Option Unit → SdkRequest
  | listTransactions : SdkRequest
  | builderFinish : SecretManager → ClientOptions → String → SdkRequest
  | generateMnemonic : SdkRequest
  | storeMnemonic : String → SdkRequest
  | createAccount : Option String → SdkRequest
  | setClientOptions : ClientOptions → SdkRequest
  | syncManager : SyncOptions → SdkRequest
deriving DecidableEq, Repr

/-- An observable event of a command run. -/
inductive Event where
  | sdkCall : SdkRequest → Event
  | log : String → Event
  | prompt : Event
deriving DecidableEq, Repr

abbrev Trace := List Event

/-- Outcome of a command: success, propagated `Err`, or a Rust panic. -/
inductive Res (α : Type) where
  | ok : α → Res α
  | err : Error → Res α
  | panicked : String → Res α
deriving DecidableEq, Repr

/-- The command monad: an event trace together with the outcome.  The trace
keeps the events that happened before an error or panic. -/
abbrev M (α : Type) : Type := Trace × Res α

def M.pure {α : Type} (a : α) : M α := ([], Res.ok a)

def M.bind {α β : Type} (m : M α) (f : α → M β) : M β :=
  match m.2 with
  | Res.ok a => (m.1 ++ (f a).1, (f a).2)
  | Res.err e => (m.1, Res.err e)
  | Res.panicked s => (m.1, Res.panicked s)

instance : Monad M where
  pure := M.pure
  bind := M.bind

/-- `log::info!`. -/
def logInfo (msg : String) : M Unit := ([Event.log msg], Res.ok ())

/-- Perform one SDK call: record the typed request and convert an SDK error
through the `From` conversion used by the question-mark operator. -/
def callSdk {α : Type} (req : SdkRequest) (result : Except SdkError α) : M α :=
  ([Event.sdkCall req],
   match result with
   | Except.ok a => Res.ok a
   | Except.error e => Res.err (Error.sdk e))

/-- Lift a local (non-SDK) fallible computation, as the question-mark
operator does after a `map_err`. -/
def liftE {α : Type} (r : Except Error α) : M α :=
  ([], match r with
       | Except.ok a => Res.ok a
       | Except.error e => Res.err e)

/-- Return early with a locally constructed error. -/
def throwE {α : Type} (e : Error) : M α := ([], Res.err e)

/-- A Rust `panic!`. -/
def panicWith {α : Type} (msg : String) : M α := ([], Res.panicked msg)

/-- `Option::transpose` on a fallible payload. -/
def transposeE {ε α : Type} : Option (Except ε α) → Except ε (Option α)
  | none => Except.ok none
  | some (Except.ok a) => Except.ok (some a)
  | some (Except.error e) => Except.error e

/-- The environment: results of every external SDK entry point and external
parser the command layer uses.  Request-taking entry points are functions of
the request, so responses may depend on it. -/
structure SdkEnv where
  listAddresses : Except SdkError (List AccountAddress)
  listAddressesWithUnspentOutputs : Except SdkError (List AddressWithUnspentOutputs)
  getBalance : Except SdkError AccountBalance
  consolidateOutputs : Except SdkError Unit
  requestFundsFromFaucet : String → String → Except SdkError String
  mintNativeToken : NativeTokenOptions → Except SdkError TransferResult
  mintNfts : List NftOptions → Except SdkError TransferResult
  generateAddresses : Nat → Except SdkError (List AccountAddress)
  sendAmount : List AddressWithAmount → Except SdkError TransferResult
  sendMicroTransaction : List AddressWithMicroAmount → Except SdkError TransferResult
  sendNativeTokens : List AddressNativeTokens → Except SdkError TransferResult
  sendNft : List AddressAndNftId → Except SdkError TransferResult
  syncAccount : Except SdkError AccountBalance
  listTransactions : Except SdkError (List Transaction)
  builderFinish : SecretManager → ClientOptions → String → Except SdkError AccountManagerRepr
  generateMnemonic : Except SdkError String
  storeMnemonic : String → Except SdkError Unit
  createAccount : Option String → Except SdkError AccountHandleRepr
  setClientOptions : ClientOptions → Except SdkError Unit
  syncManager : SyncOptions → Except SdkError AccountBalance
  nodeValidate : String → Except SdkError Unit
  u256FromDecStr : String → Except String Nat
  prefixHexDecode : String → Except String (List Nat)
  tokenIdFromStr : String → Except SdkError TokenId
  nftIdFromStr : String → Except SdkError NftId
  accountPrompt : AccountHandleRepr → M Unit

/-- `ClientOptions::new().with_node(url)`: url validation happens in the
external client crate; on success the node is recorded. -/
def ClientOptions.withNode (env : SdkEnv) (c : ClientOptions) (url : String) :
    Except SdkError ClientOptions :=
  match env.nodeValidate url with
  | Except.ok _ => Except.ok { c with node := some url }
  | Except.error e => Except.error e

/-- Rust `bool` ordering (`false < true`). -/
def boolCompare : Bool → Bool → Ordering
  | false, false => Ordering.eq
  | false, true => Ordering.lt
  | true, false => Ordering.gt
  | true, true => Ordering.eq

/-- Rust tuple ordering on `(u32, bool)`, the key type used by
`print_address`: lexicographic. -/
def keyCompare (a b : Nat × Bool) : Ordering :=
  match compare a.1 b.1 with
  | Ordering.eq => boolCompare a.2 b.2
  | o => o

/-- The loop of Rust slice `binary_search_by`: at each step
`mid = left + (right - left) / 2`; `Less` moves `left` past `mid`,
`Greater` moves `right` to `mid`, equality returns `Ok(mid)`, an empty
window returns `Err(left)`.  The loop strictly shrinks `right - left`, so
any fuel of at least the initial window size reproduces it exactly; the
`none` row is unreachable while `right` stays within the list. -/
def binarySearchGo {α : Type} (f : α → Ordering) (xs : List α) :
    Nat → Nat → Nat → Except Nat Nat
  | 0, left, _right => Except.error left
  | Nat.succ fuel, left, right =>
    if left < right then
      let mid := left + (right - left) / 2
      match xs.get? mid with
      | none => Except.error left
      | some x =>
        match f x with
        | Ordering.lt => binarySearchGo f xs fuel (mid + 1) right
        | Ordering.gt => binarySearchGo f xs fuel left mid
        | Ordering.eq => Except.ok mid
    else Except.error left

/-- Rust slice `binary_search_by` over the whole list. -/
def binary_search_by {α : Type} (xs : List α) (f : α → Ordering) : Except Nat Nat :=
  binarySearchGo f xs xs.length 0 xs.length

/-- Rust `str::as_bytes` (UTF-8 bytes, as naturals). -/
def strBytes (s : String) : List Nat := s.toUTF8.toList.map (fun b => b.toNat)

namespace Account

/-- src/command/account.rs `print_transaction`: log the debug rendering. -/
def print_transaction (transaction : Transaction) : M Unit :=
  logInfo transaction

/-- src/command/account.rs `print_address`: format the address header, add
the change-address line for internal addresses, fetch the addresses with
unspent outputs and look the printed address up by `(key_index, internal)`
with `binary_search_by_key` (that is, `binary_search_by` with the key
comparator); on a hit append the balance and output ids. -/
def print_address (env : SdkEnv) (address : AccountAddress) : M Unit := do
  let log0 := "Address " ++ toString address.keyIndex ++ ": " ++ address.toBech32
  let log1 := if address.internal then log0 ++ "\nChange address" else log0
  let addressesWithBalance ← callSdk SdkRequest.listAddressesWithUnspentOutputs
    env.listAddressesWithUnspentOutputs
  let log2 :=
    match binary_search_by addressesWithBalance
        (fun a => keyCompare (a.keyIndex, a.internal) (address.keyIndex, address.internal)) with
    | Except.ok index =>
      let entry := addressesWithBalance.getD index default
      log1 ++ "\nBalance: " ++ toString entry.amount ++ "\nOutputs: " ++ toString entry.outputIds
    | Except.error _ => log1
  logInfo log2

/-- src/command/account.rs `addresses_command`. -/
def addresses_command (env : SdkEnv) : M Unit := do
  let addresses ← callSdk SdkRequest.listAddresses env.listAddresses
  if addresses.isEmpty then
    logInfo "No addresses found"
  else
    addresses.forM (fun address => print_address env address)

/-- src/command/account.rs `balance_command`. -/
def balance_command (env : SdkEnv) : M Unit := do
  let b ← callSdk SdkRequest.getBalance env.getBalance
  logInfo b

/-- src/command/account.rs `consolidate_command`. -/
def consolidate_command (env : SdkEnv) : M Unit := do
  logInfo "Consolidating outputs."
  let _ ← callSdk (SdkRequest.consolidateOutputs true none) env.consolidateOutputs
  pure ()

/-- src/command/account.rs `faucet_command`: resolve the target address (the
argument if given, otherwise the last listed address, failing with
`NoAddressForFaucet` on an empty list), resolve the url (argument or the
localhost default) and request funds. -/
def faucet_command (env : SdkEnv) (url : Option String) (address : Option String) : M Unit := do
  let address ←
    match address with
    | some address => pure address
    | none => do
      let addresses ← callSdk SdkRequest.listAddresses env.listAddresses
      match addresses.getLast? with
      | some address => pure address.toBech32
      | none => throwE Error.noAddressForFaucet
  let faucetUrl :=
    match url with
    | some faucetUrl => faucetUrl
    | none => "http://localhost:14265/api/plugins/faucet/v1/enqueue"
  let response ← callSdk (SdkRequest.requestFundsFromFaucet faucetUrl address)
    (env.requestFundsFromFaucet faucetUrl address)
  logInfo response

/-- src/command/account.rs `mint_native_token_command`: both supplies are
parsed from the same `maximum_supply` decimal string, the account address is
`None`, the optional foundry metadata is prefix-hex decoded; parse failures
become `Error::Miscellanous` before any SDK call. -/
def mint_native_token_command (env : SdkEnv) (maximum_supply : String)
    (foundry_metadata : Option String) : M Unit := do
  let circulatingSupply ← liftE
    ((env.u256FromDecStr maximum_supply).mapError (fun e => Error.miscellanous e))
  let maximumSupply ← liftE
    ((env.u256FromDecStr maximum_supply).mapError (fun e => Error.miscellanous e))
  let foundryMetadata ← liftE
    ((transposeE (foundry_metadata.map (fun s => env.prefixHexDecode s))).mapError
      (fun e => Error.miscellanous e))
  let native_token_options : NativeTokenOptions :=
    { accountAddress := none
      circulatingSupply := circulatingSupply
      maximumSupply := maximumSupply
      foundryMetadata := foundryMetadata }
  let transfer_result ← callSdk (SdkRequest.mintNativeToken native_token_options none)
    (env.mintNativeToken native_token_options)
  logInfo ("Native token minting transaction sent: " ++ transfer_result)

/-- src/command/account.rs `mint_nft_command`. -/
def mint_nft_command (env : SdkEnv) (address : Option String)
    (immutable_metadata : Option String) (metadata : Option String) : M Unit := do
  let immutable_metadata := immutable_metadata.map (fun s => strBytes s)
  let metadata := metadata.map (fun s => strBytes s)
  let nft_options : List NftOptions :=
    [{ address := address, immutableMetadata := immutable_metadata, metadata := metadata }]
  let transfer_result ← callSdk (SdkRequest.mintNfts nft_options none)
    (env.mintNfts nft_options)
  logInfo ("NFT minting transaction sent: " ++ transfer_result)

/-- src/command/account.rs `new_address_command`: generate one address and
print it; the Rust `&address[0]` indexing panics if the SDK returned no
address. -/
def new_address_command (env : SdkEnv) : M Unit := do
  let address ← callSdk (SdkRequest.generateAddresses 1 none) (env.generateAddresses 1)
  match address with
  | [] => panicWith "index out of bounds: the len is 0 but the index is 0"
  | first :: _ => print_address env first

/-- src/command/account.rs `send_command`. -/
def send_command (env : SdkEnv) (address : String) (amount : Nat) : M Unit := do
  let outputs : List AddressWithAmount := [{ address := address, amount := amount }]
  let transfer_result ← callSdk (SdkRequest.sendAmount outputs none) (env.sendAmount outputs)
  logInfo ("Transaction created: " ++ transfer_result)

/-- src/command/account.rs `send_micro_command`. -/
def send_micro_command (env : SdkEnv) (address : String) (amount : Nat) : M Unit := do
  let outputs : List AddressWithMicroAmount :=
    [{ address := address, amount := amount, returnAddress := none, expiration := none }]
  let transfer_result ← callSdk (SdkRequest.sendMicroTransaction outputs none)
    (env.sendMicroTransaction outputs)
  logInfo ("Micro transaction created: " ++ transfer_result)

/-- src/command/account.rs `send_native_token_command`: the token id and the
decimal amount are parsed immediately before building the request; a parse
failure is converted (`From` for the id, `Error::Miscellanous` for the
amount) before any SDK call. -/
def send_native_token_command (env : SdkEnv) (address : String) (token_id : String)
    (amount : String) : M Unit := do
  let tokenId ← liftE ((env.tokenIdFromStr token_id).mapError (fun e => Error.sdk e))
  let amountValue ← liftE
    ((env.u256FromDecStr amount).mapError (fun e => Error.miscellanous e))
  let outputs : List AddressNativeTokens :=
    [{ address := address, nativeTokens := [(tokenId, amountValue)],
       returnAddress := none, expiration := none }]
  let transfer_result ← callSdk (SdkRequest.sendNativeTokens outputs none)
    (env.sendNativeTokens outputs)
  logInfo ("Transaction created: " ++ transfer_result)

/-- src/command/account.rs `send_nft_command`. -/
def send_nft_command (env : SdkEnv) (address : String) (nft_id : String) : M Unit := do
  let nftId ← liftE ((env.nftIdFromStr nft_id).mapError (fun e => Error.sdk e))
  let outputs : List AddressAndNftId := [{ address := address, nftId := nftId }]
  let transfer_result ← callSdk (SdkRequest.sendNft outputs none) (env.sendNft outputs)
  logInfo ("Transaction created: " ++ transfer_result)

/-- src/command/account.rs `sync_command` (per-account). -/
def sync_command (env : SdkEnv) : M Unit := do
  let sync ← callSdk (SdkRequest.syncAccount none) env.syncAccount
  logInfo ("Synced: " ++ sync)

/-- src/command/account.rs `transactions_command`. -/
def transactions_command (env : SdkEnv) : M Unit := do
  let transactions ← callSdk SdkRequest.listTransactions env.listTransactions
  if transactions.isEmpty then
    logInfo "No transactions found"
  else
    transactions.forM (fun transaction => print_transaction transaction)

end Account

/-- Modelled from the spec: `account_prompt` (crate::account) is not under
src/; per the spec it runs the per-account command loop.  It is modelled as
an opaque environment-supplied computation whose entry is recorded as a
`prompt` event. -/
def account_prompt (env : SdkEnv) (handle : AccountHandleRepr) : M Unit :=
  (Event.prompt :: (env.accountPrompt handle).1, (env.accountPrompt handle).2)

namespace Manager

/-- src/command/account_manager.rs `init_command`: build the client options
(with the supplied node url or the localhost default, node sync disabled),
finish the account manager builder with the secret manager and storage path,
resolve the mnemonic (supplied or SDK-generated), log it, then store it in
the Stronghold secret manager — panicking for every other secret manager
variant — and return the manager. -/
def init_command (env : SdkEnv) (secret_manager : SecretManager) (storage_path : String)
    (mnemonic_url : MnemonicAndUrl) : M AccountManagerRepr := do
  let clientOptions ← liftE
    ((ClientOptions.withNode env ClientOptions.new
        (mnemonic_url.node.getD "http://localhost:14265")).mapError
      (fun e => Error.sdk e))
  let clientOptions := clientOptions.withNodeSyncDisabled
  let account_manager ← callSdk
    (SdkRequest.builderFinish secret_manager clientOptions storage_path)
    (env.builderFinish secret_manager clientOptions storage_path)
  let mnemonic ←
    match mnemonic_url.mnemonic with
    | some mnemonic => pure mnemonic
    | none => callSdk SdkRequest.generateMnemonic env.generateMnemonic
  logInfo "IMPORTANT: write this mnemonic phrase in a safe place."
  logInfo "It is the only way to recover your account if you ever forget your password and/or lose the stronghold file."
  logInfo mnemonic
  match secret_manager with
  | SecretManager.stronghold =>
    let _ ← callSdk (SdkRequest.storeMnemonic mnemonic) (env.storeMnemonic mnemonic)
    pure ()
  | _ => panicWith "cli-wallet only supports Stronghold-backed secret managers at the moment."
  logInfo "Mnemonic stored successfully"
  pure account_manager

/-- src/command/account_manager.rs `new_command`: create the account (with
the optional alias), log its alias and enter the account prompt. -/
def new_command (env : SdkEnv) (_manager : AccountManagerRepr) (aliasOpt : Option String) :
    M Unit := do
  let account_handle ← callSdk (SdkRequest.createAccount aliasOpt) (env.createAccount aliasOpt)
  logInfo ("Created account \"" ++ account_handle.aliasName ++ "\"")
  account_prompt env account_handle

/-- src/command/account_manager.rs `set_node_command`. -/
def set_node_command (env : SdkEnv) (_manager : AccountManagerRepr) (url : String) :
    M Unit := do
  let clientOptions ← liftE
    ((ClientOptions.withNode env ClientOptions.new url).mapError (fun e => Error.sdk e))
  let _ ← callSdk (SdkRequest.setClientOptions clientOptions.withNodeSyncDisabled)
    (env.setClientOptions clientOptions.withNodeSyncDisabled)
  pure ()

/-- src/command/account_manager.rs `sync_command` (all accounts). -/
def sync_command (env : SdkEnv) (_manager : AccountManagerRepr) : M Unit := do
  let options : SyncOptions := { tryCollectOutputs := OutputsToCollect.all }
  let total_balance ← callSdk (SdkRequest.syncManager options) (env.syncManager options)
  logInfo ("Synchronized all accounts: " ++ total_balance)

end Manager

theorem M_bind_eq {α β : Type} (m : M α) (f : α → M β) : m >>= f = M.bind m f := rfl

theorem M_pure_eq {α : Type} (a : α) : (pure a : M α) = ([], Res.ok a) := rfl

theorem M_bind_ok {α β : Type} (t : Trace) (a : α) (f : α → M β) :
    M.bind (t, Res.ok a) f = (t ++ (f a).1, (f a).2) := rfl

theorem M_bind_err {α β : Type} (t : Trace) (e : Error) (f : α → M β) :
    M.bind (t, Res.err e) f = (t, Res.err e) := rfl

theorem M_bind_panicked {α β : Type} (t : Trace) (s : String) (f : α → M β) :
    M.bind (t, Res.panicked s) f = (t, Res.panicked s) := rfl

theorem callSdk_ok {α : Type} (req : SdkRequest) (a : α) :
    callSdk req (Except.ok a) = ([Event.sdkCall req], Res.ok a) := rfl

theorem callSdk_error {α : Type} (req : SdkRequest) (e : SdkError) :
    (callSdk req (Except.error e) : M α) = ([Event.sdkCall req], Res.err (Error.sdk e)) := rfl

theorem liftE_ok {α : Type} (a : α) : liftE (Except.ok a) = ([], Res.ok a) := rfl

theorem liftE_error {α : Type} (e : Error) :
    (liftE (Except.error e) : M α) = ([], Res.err e) := rfl

theorem emap_ok {ε ε' α : Type} (f : ε → ε') (a : α) :
    Except.mapError f (Except.ok a) = Except.ok a := rfl

theorem emap_error {ε ε' α : Type} (f : ε → ε') (e : ε) :
    (Except.mapError f (Except.error e) : Except ε' α) = Except.error (f e) := rfl

attribute [simp] M_bind_eq M_pure_eq M_bind_ok M_bind_err M_bind_panicked
  callSdk_ok callSdk_error liftE_ok liftE_error emap_ok emap_error

/-- Number of SDK invocations recorded in a trace. -/
def sdkCallCount : Trace → Nat
  | [] => 0
  | Event.sdkCall _ :: t => sdkCallCount t + 1
  | Event.log _ :: t => sdkCallCount t
  | Event.prompt :: t => sdkCallCount t

theorem sdkCallCount_nil : sdkCallCount [] = 0 := rfl

theorem sdkCallCount_sdk (r : SdkRequest) (t : Trace) :
    sdkCallCount (Event.sdkCall r :: t) = sdkCallCount t + 1 := rfl

theorem sdkCallCount_log (s : String) (t : Trace) :
    sdkCallCount (Event.log s :: t) = sdkCallCount t := rfl

theorem sdkCallCount_prompt (t : Trace) :
    sdkCallCount (Event.prompt :: t) = sdkCallCount t := rfl

attribute [simp] sdkCallCount_nil sdkCallCount_sdk sdkCallCount_log sdkCallCount_prompt

theorem sdkCallCount_append (s t : Trace) :
    sdkCallCount (s ++ t) = sdkCallCount s + sdkCallCount t := by
  induction s with
  | nil => simp
  | cons e s ih => cases e <;> simp [ih, Nat.add_right_comm]

attribute [simp] sdkCallCount_append

/-- Digit-list accumulator used by the demo environment's decimal parser. -/
def demoDecGo : List Char → Nat → Except String Nat
  | [], acc => Except.ok acc
  | c :: cs, acc =>
    if c.isDigit then demoDecGo cs (acc * 10 + (c.toNat - 48))
    else Except.error "invalid character"

/-- The decimal parser the demo environment supplies for
`U256::from_dec_str`: digits accumulate left to right, anything else is an
invalid character. -/
def demoDec (s : String) : Except String Nat := demoDecGo s.data 0

/-- A concrete account address for the witness environments. -/
def demoAddr : AccountAddress := { bech32 := "rms1demo0", keyIndex := 0, internal := false }

/-- A concrete environment for witnesses and counterexamples: every SDK call
succeeds with a fixed response. -/
def demoEnv : SdkEnv where
  listAddresses := Except.ok [demoAddr]
  listAddressesWithUnspentOutputs := Except.ok []
  getBalance := Except.ok "balance"
  consolidateOutputs := Except.ok ()
  requestFundsFromFaucet := fun _ _ => Except.ok "faucet-response"
  mintNativeToken := fun _ => Except.ok "mint-result"
  mintNfts := fun _ => Except.ok "mint-nft-result"
  generateAddresses := fun _ => Except.ok [demoAddr]
  sendAmount := fun _ => Except.ok "send-result"
  sendMicroTransaction := fun _ => Except.ok "send-micro-result"
  sendNativeTokens := fun _ => Except.ok "send-native-result"
  sendNft := fun _ => Except.ok "send-nft-result"
  syncAccount := Except.ok "synced"
  listTransactions := Except.ok []
  builderFinish := fun _ _ _ => Except.ok { id := 0 }
  generateMnemonic := Except.ok "generated mnemonic words"
  storeMnemonic := fun _ => Except.ok ()
  createAccount := fun _ => Except.ok { aliasName := "Alice" }
  setClientOptions := fun _ => Except.ok ()
  syncManager := fun _ => Except.ok "all-synced"
  nodeValidate := fun _ => Except.ok ()
  u256FromDecStr := fun s => demoDec s
  prefixHexDecode := fun _ => Except.error "invalid prefix"
  tokenIdFromStr := fun s => Except.ok { bytes := [s.length] }
  nftIdFromStr := fun s => Except.ok { bytes := [s.length] }
  accountPrompt := fun _ => ([], Res.ok ())

/-- Spec-side refinement predicate for C3: the manager-level operations the
spec enumerates ("initialize wallet, create account, set node, sync all
accounts"). -/
def specListedManagerOp : AccountManagerCommand → Bool
  | AccountManagerCommand.init _ => true
  | AccountManagerCommand.new _ => true
  | AccountManagerCommand.setNode _ => true
  | AccountManagerCommand.sync => true

/-- Spec-side refinement predicate for C3: the per-account operations the
spec enumerates ("list addresses, balance, consolidate, faucet request, mint
token/NFT, generate address, send value/micro-value/native-token/NFT, sync,
list transactions").  `Exit` is not in that enumeration. -/
def specListedAccountOp : AccountCommand → Bool
  | AccountCommand.addresses => true
  | AccountCommand.balance => true
  | AccountCommand.consolidate => true
  | AccountCommand.faucet _ _ => true
  | AccountCommand.mintNativeToken _ _ => true
  | AccountCommand.mintNft _ _ _ => true
  | AccountCommand.newAddress => true
  | AccountCommand.send _ _ => true
  | AccountCommand.sendMicro _ _ => true
  | AccountCommand.sendNativeToken _ _ _ => true
  | AccountCommand.sendNft _ _ => true
  | AccountCommand.sync => true
  | AccountCommand.transactions => true
  | AccountCommand.exit => false

/-- C3 counterexample: the per-account command set is not exhausted by the
spec's enumeration — the `Exit` variant (leave the account prompt) exists and
is not listed. -/
theorem c3_counterexample : ¬ (∀ c : AccountCommand, specListedAccountOp c = true) :=
  fun h => absurd (h AccountCommand.exit) (by decide)

/-- C3 amended: the manager-level operations are exactly the four listed
ones, and the per-account operations are exactly the listed ones plus the
`Exit` variant that leaves the account prompt. -/
theorem c3_amended :
    (∀ c : AccountManagerCommand, specListedManagerOp c = true) ∧
    (∀ c : AccountCommand, specListedAccountOp c = true ∨ c = AccountCommand.exit) := by
  constructor
  · intro c; cases c <;> rfl
  · intro c; cases c <;> simp [specListedAccountOp]

/-- How an amount argument crosses the `clap` parsing boundary, read off the
field types of the `AccountCommand` declaration: `Send` and `SendMicro`
declare `amount: u64`, `SendNativeToken` declares `amount: String`, and
`MintNativeToken` declares `maximum_supply: String`. -/
inductive ArgRepr where
  | stringRepr : ArgRepr
  | u64Repr : ArgRepr
deriving DecidableEq, Repr

/-- The representation of the numeric-amount argument of each per-account
command, transcribed from the `AccountCommand` field types. -/
def amountArgRepr : AccountCommand → Option ArgRepr
  | AccountCommand.send _ _ => some ArgRepr.u64Repr
  | AccountCommand.sendMicro _ _ => some ArgRepr.u64Repr
  | AccountCommand.sendNativeToken _ _ _ => some ArgRepr.stringRepr
  | AccountCommand.mintNativeToken _ _ => some ArgRepr.stringRepr
  | _ => none

/-- C4 counterexample: not every numeric amount crosses the parsed-argument
boundary as a string — the `Send` command's amount is a `u64`. -/
theorem c4_counterexample :
    ¬ (∀ (c : AccountCommand) (r : ArgRepr), amountArgRepr c = some r → r = ArgRepr.stringRepr) :=
  fun h => absurd (h (AccountCommand.send "rms1x" 1000000) ArgRepr.u64Repr rfl) (by decide)

/-- C4 amended: token/NFT ids and the native-token and mint amounts cross the
parsing boundary as strings and are converted to SDK types immediately before
the call, but the `Send` and `SendMicro` amounts cross as `u64` values parsed
by clap, and only those two. -/
theorem c4_amended :
    (∀ a n, amountArgRepr (AccountCommand.send a n) = some ArgRepr.u64Repr) ∧
    (∀ a n, amountArgRepr (AccountCommand.sendMicro a n) = some ArgRepr.u64Repr) ∧
    (∀ a t m, amountArgRepr (AccountCommand.sendNativeToken a t m) = some ArgRepr.stringRepr) ∧
    (∀ m f, amountArgRepr (AccountCommand.mintNativeToken m f) = some ArgRepr.stringRepr) ∧
    (∀ c : AccountCommand, amountArgRepr c = some ArgRepr.u64Repr →
      (∃ a n, c = AccountCommand.send a n) ∨ (∃ a n, c = AccountCommand.sendMicro a n)) ∧
    (∀ (env : SdkEnv) (a t m : String) (tid : TokenId) (v : Nat),
      env.tokenIdFromStr t = Except.ok tid → env.u256FromDecStr m = Except.ok v →
      Event.sdkCall (SdkRequest.sendNativeTokens
          [{ address := a, nativeTokens := [(tid, v)], returnAddress := none, expiration := none }]
          none) ∈ (Account.send_native_token_command env a t m).1) := by
  refine ⟨fun _ _ => rfl, fun _ _ => rfl, fun _ _ _ => rfl, fun _ _ => rfl, ?_, ?_⟩
  · intro c h
    cases c <;> first
      | exact Or.inl ⟨_, _, rfl⟩
      | exact Or.inr ⟨_, _, rfl⟩
      | simp [amountArgRepr] at h
  · intro env a t m tid v h1 h2
    cases henv : env.sendNativeTokens
        [{ address := a, nativeTokens := [(tid, v)], returnAddress := none, expiration := none }] <;>
      simp [Account.send_native_token_command, h1, h2, henv]

/-- C4 witness: the conversion clause of the amended claim at a concrete
environment and arguments. -/
theorem c4_witness :
    demoEnv.tokenIdFromStr "0x08aa" = Except.ok { bytes := [6] } ∧
    demoEnv.u256FromDecStr "10" = Except.ok 10 ∧
    Event.sdkCall (SdkRequest.sendNativeTokens
        [{ address := "rms1x", nativeTokens := [({ bytes := [6] }, 10)],
           returnAddress := none, expiration := none }] none)
      ∈ (Account.send_native_token_command demoEnv "rms1x" "0x08aa" "10").1 :=
  ⟨by decide, by decide,
   c4_amended.2.2.2.2.2 demoEnv "rms1x" "0x08aa" "10" { bytes := [6] } 10 (by decide) (by decide)⟩

/-- C8: every `mint_native_token` request this command builds has
`circulating_supply` equal to `maximum_supply` (both parsed from the same
decimal string) and `account_address` equal to `None`; and when the parses
succeed the command performs exactly that request. -/
theorem c8_mint_supplies :
    ∀ (env : SdkEnv) (maximum_supply : String) (foundry_metadata : Option String),
      (∀ opts transferOpts,
        Event.sdkCall (SdkRequest.mintNativeToken opts transferOpts)
            ∈ (Account.mint_native_token_command env maximum_supply foundry_metadata).1 →
        opts.circulatingSupply = opts.maximumSupply ∧ opts.accountAddress = none) ∧
      (∀ (v : Nat) (fm : Option (List Nat)),
        env.u256FromDecStr maximum_supply = Except.ok v →
        transposeE (foundry_metadata.map (fun s => env.prefixHexDecode s)) = Except.ok fm →
        Event.sdkCall (SdkRequest.mintNativeToken
            { accountAddress := none, circulatingSupply := v, maximumSupply := v,
              foundryMetadata := fm } none)
          ∈ (Account.mint_native_token_command env maximum_supply foundry_metadata).1) := by
  intro env maximum_supply foundry_metadata
  constructor
  · intro opts transferOpts hmem
    cases hc : env.u256FromDecStr maximum_supply with
    | error e => simp [Account.mint_native_token_command, hc] at hmem
    | ok v =>
      cases hf : transposeE (foundry_metadata.map (fun s => env.prefixHexDecode s)) with
      | error e => simp [Account.mint_native_token_command, hc, hf] at hmem
      | ok fm =>
        cases hm : env.mintNativeToken
            { accountAddress := none, circulatingSupply := v, maximumSupply := v,
              foundryMetadata := fm } <;>
          · simp [Account.mint_native_token_command, hc, hf, hm, logInfo] at hmem
            obtain ⟨h1, -⟩ := hmem
            subst h1
            exact ⟨rfl, rfl⟩
  · intro v fm hc hf
    cases hm : env.mintNativeToken
        { accountAddress := none, circulatingSupply := v, maximumSupply := v,
          foundryMetadata := fm } <;>
      simp [Account.mint_native_token_command, hc, hf, hm]

/-- C8 witness: minting with maximum supply "100" at a concrete environment
performs the request with both supplies 100 and no account address. -/
theorem c8_witness :
    demoEnv.u256FromDecStr "100" = Except.ok 100 ∧
    Event.sdkCall (SdkRequest.mintNativeToken
        { accountAddress := none, circulatingSupply := 100, maximumSupply := 100,
          foundryMetadata := none } none)
      ∈ (Account.mint_native_token_command demoEnv "100" none).1 :=
  ⟨by decide, (c8_mint_supplies demoEnv "100" none).2 100 none (by decide) rfl⟩

/-- The faucet url the command resolves: the argument if present, otherwise
the localhost default. -/
def resolvedFaucetUrl (url : Option String) : String :=
  url.getD "http://localhost:14265/api/plugins/faucet/v1/enqueue"

/-- Run equation for `faucet_command` without an address argument. -/
theorem faucet_none_eq (env : SdkEnv) (url : Option String) :
    Account.faucet_command env url none =
      M.bind (callSdk SdkRequest.listAddresses env.listAddresses) (fun addresses =>
        match addresses.getLast? with
        | some address =>
          M.bind
            (callSdk
              (SdkRequest.requestFundsFromFaucet (resolvedFaucetUrl url) address.toBech32)
              (env.requestFundsFromFaucet (resolvedFaucetUrl url) address.toBech32))
            (fun response => logInfo response)
        | none => throwE Error.noAddressForFaucet) := by
  cases url <;> rfl

/-- Run equation for `faucet_command` with an explicit address argument. -/
theorem faucet_some_eq (env : SdkEnv) (url : Option String) (address : String) :
    Account.faucet_command env url (some address) =
      M.bind
        (callSdk (SdkRequest.requestFundsFromFaucet (resolvedFaucetUrl url) address)
          (env.requestFundsFromFaucet (resolvedFaucetUrl url) address))
        (fun response => logInfo response) := by
  cases url <;> rfl

/-- C2 counterexample: with an account that has no addresses, `faucet`
returns the locally constructed `Error::NoAddressForFaucet` even though the
one SDK call of the run succeeded — the error is not propagated from any SDK
call. -/
theorem c2_counterexample :
    Account.faucet_command { demoEnv with listAddresses := Except.ok [] } none none
        = ([Event.sdkCall SdkRequest.listAddresses], Res.err Error.noAddressForFaucet) ∧
    (∀ e : SdkError, Error.noAddressForFaucet ≠ Error.sdk e) :=
  ⟨by decide, fun _ h => Error.noConfusion h⟩

/-- C2 amended: commands whose run reaches an SDK call propagate only the
SDK's error, but two local failure policies exist: `faucet` constructs
`NoAddressForFaucet` when the account has no address, and the native-token
commands wrap local parse failures in `Miscellanous` and return them before
any SDK call is made. -/
theorem c2_amended :
    (∀ (env : SdkEnv) (a : String) (n : Nat) (e : Error),
      (Account.send_command env a n).2 = Res.err e →
      ∃ se, e = Error.sdk se ∧ env.sendAmount [{ address := a, amount := n }] = Except.error se) ∧
    (∀ (env : SdkEnv) (e : Error),
      (Account.balance_command env).2 = Res.err e →
      ∃ se, e = Error.sdk se ∧ env.getBalance = Except.error se) ∧
    (∀ (env : SdkEnv) (url : Option String),
      env.listAddresses = Except.ok [] →
      (Account.faucet_command env url none).2 = Res.err Error.noAddressForFaucet) ∧
    (∀ (env : SdkEnv) (s : String) (f : Option String) (pe : String),
      env.u256FromDecStr s = Except.error pe →
      Account.mint_native_token_command env s f = ([], Res.err (Error.miscellanous pe))) := by
  refine ⟨?_, ?_, ?_, ?_⟩
  · intro env a n e h
    cases hs : env.sendAmount [{ address := a, amount := n }] with
    | ok r => simp [Account.send_command, hs, logInfo] at h
    | error se =>
      simp [Account.send_command, hs, logInfo] at h
      exact ⟨se, h.symm, rfl⟩
  · intro env e h
    cases hb : env.getBalance with
    | ok r => simp [Account.balance_command, hb, logInfo] at h
    | error se =>
      simp [Account.balance_command, hb, logInfo] at h
      exact ⟨se, h.symm, rfl⟩
  · intro env url h
    rw [faucet_none_eq]
    simp [h, throwE]
  · intro env s f pe h
    simp [Account.mint_native_token_command, h]

/-- C2 witness: the parse-failure clause of the amended claim at a concrete
environment — an invalid decimal string yields `Miscellanous` with no SDK
call at all. -/
theorem c2_witness :
    demoEnv.u256FromDecStr "12x" = Except.error "invalid character" ∧
    Account.mint_native_token_command demoEnv "12x" none
      = ([], Res.err (Error.miscellanous "invalid character")) :=
  ⟨by decide, c2_amended.2.2.2 demoEnv "12x" none "invalid character" (by decide)⟩

/-- C7: `faucet_command` behaviour.  Without an address argument the target
is the last listed address and an empty address list yields
`NoAddressForFaucet` with no faucet request; without a url argument the url
used is exactly the localhost default; an explicit address is passed to the
faucet as-is with the account never consulted. -/
theorem c7_faucet :
    ∀ (env : SdkEnv) (url : Option String),
      (env.listAddresses = Except.ok [] →
        Account.faucet_command env url none
          = ([Event.sdkCall SdkRequest.listAddresses], Res.err Error.noAddressForFaucet)) ∧
      (∀ addrs last, env.listAddresses = Except.ok addrs → addrs.getLast? = some last →
        (Event.sdkCall (SdkRequest.requestFundsFromFaucet (resolvedFaucetUrl url) last.toBech32)
            ∈ (Account.faucet_command env url none).1) ∧
        (∀ u a, Event.sdkCall (SdkRequest.requestFundsFromFaucet u a)
            ∈ (Account.faucet_command env url none).1 →
          u = resolvedFaucetUrl url ∧ a = last.toBech32)) ∧
      (resolvedFaucetUrl none = "http://localhost:14265/api/plugins/faucet/v1/enqueue") ∧
      (∀ a0,
        (Event.sdkCall (SdkRequest.requestFundsFromFaucet (resolvedFaucetUrl url) a0)
            ∈ (Account.faucet_command env url (some a0)).1) ∧
        Event.sdkCall SdkRequest.listAddresses ∉ (Account.faucet_command env url (some a0)).1) := by
  intro env url
  refine ⟨?_, ?_, rfl, ?_⟩
  · intro h
    rw [faucet_none_eq]
    simp [h, throwE]
  · intro addrs last h hl
    rw [faucet_none_eq]
    cases hr : env.requestFundsFromFaucet (resolvedFaucetUrl url) last.toBech32 with
    | ok r =>
      refine ⟨by simp [h, hl, hr, logInfo], ?_⟩
      intro u a hm
      simp [h, hl, hr, logInfo] at hm
      exact ⟨hm.1, hm.2⟩
    | error e =>
      refine ⟨by simp [h, hl, hr, logInfo], ?_⟩
      intro u a hm
      simp [h, hl, hr, logInfo] at hm
      exact ⟨hm.1, hm.2⟩
  · intro a0
    rw [faucet_some_eq]
    cases hr : env.requestFundsFromFaucet (resolvedFaucetUrl url) a0 with
    | ok r => exact ⟨by simp [hr, logInfo], by simp [hr, logInfo]⟩
    | error e => exact ⟨by simp [hr, logInfo], by simp [hr, logInfo]⟩

/-- C7 witness: the empty-account clause at a concrete environment — the
faucet command fails with `NoAddressForFaucet` after only the address
listing, performing no faucet request. -/
theorem c7_witness :
    ({ demoEnv with listAddresses := Except.ok [] } : SdkEnv).listAddresses = Except.ok [] ∧
    Account.faucet_command { demoEnv with listAddresses := Except.ok [] } (some "http://my-faucet") none
      = ([Event.sdkCall SdkRequest.listAddresses], Res.err Error.noAddressForFaucet) :=
  ⟨rfl, (c7_faucet { demoEnv with listAddresses := Except.ok [] } (some "http://my-faucet")).1 rfl⟩

/-- `for_each(print_transaction)` only logs: its run is the log trace of the
transactions, always succeeding. -/
theorem forM_print_transaction (ts : List Transaction) :
    List.forM ts (fun t => Account.print_transaction t) = (ts.map Event.log, Res.ok ()) := by
  induction ts with
  | nil => rfl
  | cons t ts ih =>
    show (Account.print_transaction t >>= fun _ => ts.forM fun t => Account.print_transaction t)
        = (List.map Event.log (t :: ts), Res.ok ())
    rw [ih]
    simp [Account.print_transaction, logInfo, M_bind_eq, M.bind]

theorem sdkCallCount_map_log (ss : List String) : sdkCallCount (ss.map Event.log) = 0 := by
  induction ss with
  | nil => rfl
  | cons s ss ih => simp [ih]

theorem count_bind_callSdk {α β : Type} (req : SdkRequest) (res : Except SdkError α)
    (f : α → M β) (hf : ∀ a, sdkCallCount (f a).1 = 0) :
    sdkCallCount (M.bind (callSdk req res) f).1 = 1 := by
  cases res <;> simp [callSdk, M.bind, hf]

theorem count_bind_logInfo {β : Type} (s : String) (f : Unit → M β) :
    sdkCallCount (M.bind (logInfo s) f).1 = sdkCallCount (f ()).1 := by
  simp [logInfo, M.bind]

theorem count_bind_liftE {α β : Type} (r : Except Error α) (f : α → M β)
    (hf : ∀ a, sdkCallCount (f a).1 ≤ 1) :
    sdkCallCount (M.bind (liftE r) f).1 ≤ 1 := by
  cases r with
  | ok a =>
    have := hf a
    simp [liftE, M.bind]
    exact this
  | error e => simp [liftE, M.bind]

/-- C1 counterexample: `faucet` with no address argument performs two SDK
invocations (`list_addresses`, then `request_funds_from_faucet`), not one. -/
theorem c1_counterexample :
    sdkCallCount (Account.faucet_command demoEnv none none).1 = 2 ∧
    sdkCallCount (Account.faucet_command demoEnv none none).1 ≠ 1 := by
  decide

/-- C1 amended: the single-request commands perform exactly one SDK
invocation (at most one when a local argument parse precedes the call), but
`faucet` with a defaulted address performs two SDK invocations whenever the
account has an address, and `new` chains into the account prompt after its
create-account call; `addresses`, `new-address` and `init` likewise compose
several SDK calls. -/
theorem c1_amended :
    ∀ (env : SdkEnv),
      sdkCallCount (Account.balance_command env).1 = 1 ∧
      sdkCallCount (Account.consolidate_command env).1 = 1 ∧
      sdkCallCount (Account.sync_command env).1 = 1 ∧
      sdkCallCount (Account.transactions_command env).1 = 1 ∧
      (∀ a n, sdkCallCount (Account.send_command env a n).1 = 1) ∧
      (∀ a n, sdkCallCount (Account.send_micro_command env a n).1 = 1) ∧
      (∀ a im m, sdkCallCount (Account.mint_nft_command env a im m).1 = 1) ∧
      (∀ a i m, sdkCallCount (Account.send_native_token_command env a i m).1 ≤ 1) ∧
      (∀ a i, sdkCallCount (Account.send_nft_command env a i).1 ≤ 1) ∧
      (∀ s f, sdkCallCount (Account.mint_native_token_command env s f).1 ≤ 1) ∧
      (∀ mgr, sdkCallCount (Manager.sync_command env mgr).1 = 1) ∧
      (∀ mgr u, sdkCallCount (Manager.set_node_command env mgr u).1 ≤ 1) ∧
      (∀ addrs last url, env.listAddresses = Except.ok addrs → addrs.getLast? = some last →
        sdkCallCount (Account.faucet_command env url none).1 = 2) ∧
      (∀ mgr al handle, env.createAccount al = Except.ok handle →
        Event.prompt ∈ (Manager.new_command env mgr al).1) := by
  intro env
  refine ⟨?_, ?_, ?_, ?_, ?_, ?_, ?_, ?_, ?_, ?_, ?_, ?_, ?_, ?_⟩
  · simp only [Account.balance_command, M_bind_eq]
    exact count_bind_callSdk _ _ _ (fun b => by simp [logInfo])
  · simp only [Account.consolidate_command, M_bind_eq, count_bind_logInfo]
    exact count_bind_callSdk _ _ _ (fun u => by simp [M_pure_eq])
  · simp only [Account.sync_command, M_bind_eq]
    exact count_bind_callSdk _ _ _ (fun s => by simp [logInfo])
  · cases ht : env.listTransactions with
    | error e => simp [Account.transactions_command, ht]
    | ok ts =>
      cases ts with
      | nil => simp [Account.transactions_command, ht, logInfo]
      | cons t ts =>
        simp [Account.transactions_command, ht, forM_print_transaction, sdkCallCount_map_log]
  · intro a n
    simp only [Account.send_command, M_bind_eq]
    exact count_bind_callSdk _ _ _ (fun tr => by simp [logInfo])
  · intro a n
    simp only [Account.send_micro_command, M_bind_eq]
    exact count_bind_callSdk _ _ _ (fun tr => by simp [logInfo])
  · intro a im m
    simp only [Account.mint_nft_command, M_bind_eq]
    exact count_bind_callSdk _ _ _ (fun tr => by simp [logInfo])
  · intro a i m
    simp only [Account.send_native_token_command, M_bind_eq]
    refine count_bind_liftE _ _ (fun tid => ?_)
    refine count_bind_liftE _ _ (fun v => ?_)
    exact le_of_eq (count_bind_callSdk _ _ _ (fun tr => by simp [logInfo]))
  · intro a i
    simp only [Account.send_nft_command, M_bind_eq]
    refine count_bind_liftE _ _ (fun nid => ?_)
    exact le_of_eq (count_bind_callSdk _ _ _ (fun tr => by simp [logInfo]))
  · intro s f
    simp only [Account.mint_native_token_command, M_bind_eq]
    refine count_bind_liftE _ _ (fun c => ?_)
    refine count_bind_liftE _ _ (fun mx => ?_)
    refine count_bind_liftE _ _ (fun fm => ?_)
    exact le_of_eq (count_bind_callSdk _ _ _ (fun tr => by simp [logInfo]))
  · intro mgr
    simp only [Manager.sync_command, M_bind_eq]
    exact count_bind_callSdk _ _ _ (fun b => by simp [logInfo])
  · intro mgr u
    simp only [Manager.set_node_command, M_bind_eq]
    refine count_bind_liftE _ _ (fun co => ?_)
    exact le_of_eq (count_bind_callSdk _ _ _ (fun u2 => by simp [M_pure_eq]))
  · intro addrs last url h hl
    rw [faucet_none_eq]
    cases hr : env.requestFundsFromFaucet (resolvedFaucetUrl url) last.toBech32 <;>
      simp [h, hl, hr, logInfo]
  · intro mgr al handle hc
    simp [Manager.new_command, hc, logInfo, account_prompt]

/-- C1 witness: the two-SDK-call clause of the amended claim at a concrete
environment with one address. -/
theorem c1_witness :
    demoEnv.listAddresses = Except.ok [demoAddr] ∧
    ([demoAddr] : List AccountAddress).getLast? = some demoAddr ∧
    sdkCallCount (Account.faucet_command demoEnv none none).1 = 2 := by
  obtain ⟨-, -, -, -, -, -, -, -, -, -, -, -, hf, -⟩ := c1_amended demoEnv
  exact ⟨rfl, rfl, hf [demoAddr] demoAddr none rfl rfl⟩

/-- C9: `init_command` panics for every non-Stronghold secret manager once
the account manager was built and the mnemonic was resolved and logged, and
it returns `Ok` only when the secret manager is the Stronghold variant and
the mnemonic was stored by the SDK successfully. -/
theorem c9_init_stronghold_gate :
    ∀ (env : SdkEnv) (sm : SecretManager) (sp : String) (mu : MnemonicAndUrl),
      (∀ (m : String) (mgr : AccountManagerRepr), sm ≠ SecretManager.stronghold →
        env.nodeValidate (mu.node.getD "http://localhost:14265") = Except.ok () →
        env.builderFinish sm
            { node := some (mu.node.getD "http://localhost:14265"), nodeSyncDisabled := true } sp
          = Except.ok mgr →
        (mu.mnemonic = some m ∨ (mu.mnemonic = none ∧ env.generateMnemonic = Except.ok m)) →
        (Manager.init_command env sm sp mu).2
            = Res.panicked "cli-wallet only supports Stronghold-backed secret managers at the moment." ∧
        Event.log m ∈ (Manager.init_command env sm sp mu).1) ∧
      (∀ (t : Trace) (mgr : AccountManagerRepr),
        Manager.init_command env sm sp mu = (t, Res.ok mgr) →
        sm = SecretManager.stronghold ∧
        ∃ m, Event.sdkCall (SdkRequest.storeMnemonic m) ∈ t ∧
          env.storeMnemonic m = Except.ok ()) := by
  intro env sm sp mu
  constructor
  · intro m mgr hsm hv hb hm
    rcases hm with hsome | ⟨hnone, hgen⟩ <;>
      cases sm <;>
        first
        | exact absurd rfl hsm
        | simp [Manager.init_command, ClientOptions.withNode, ClientOptions.new,
            ClientOptions.withNodeSyncDisabled, hv, hb, hsome, logInfo, panicWith]
        | simp [Manager.init_command, ClientOptions.withNode, ClientOptions.new,
            ClientOptions.withNodeSyncDisabled, hv, hb, hnone, hgen, logInfo, panicWith]
  · intro t mgr heq
    cases hv : env.nodeValidate (mu.node.getD "http://localhost:14265") with
    | error e =>
      simp [Manager.init_command, ClientOptions.withNode, ClientOptions.new,
        ClientOptions.withNodeSyncDisabled, hv] at heq
    | ok u =>
      cases hb : env.builderFinish sm
          { node := some (mu.node.getD "http://localhost:14265"), nodeSyncDisabled := true } sp with
      | error e =>
        simp [Manager.init_command, ClientOptions.withNode, ClientOptions.new,
          ClientOptions.withNodeSyncDisabled, hv, hb] at heq
      | ok mgr2 =>
        have main : ∀ (m : String),
            (mu.mnemonic = some m ∨ (mu.mnemonic = none ∧ env.generateMnemonic = Except.ok m)) →
            sm = SecretManager.stronghold ∧
            ∃ m2, Event.sdkCall (SdkRequest.storeMnemonic m2) ∈ t ∧
              env.storeMnemonic m2 = Except.ok () := by
          intro m hm
          cases sm with
          | stronghold =>
            refine ⟨rfl, m, ?_⟩
            cases hst : env.storeMnemonic m with
            | error e =>
              rcases hm with hsome | ⟨hnone, hgen⟩
              · simp [Manager.init_command, ClientOptions.withNode, ClientOptions.new,
                  ClientOptions.withNodeSyncDisabled, hv, hb, hsome, hst,
                  logInfo, panicWith] at heq
              · simp [Manager.init_command, ClientOptions.withNode, ClientOptions.new,
                  ClientOptions.withNodeSyncDisabled, hv, hb, hnone, hgen, hst,
                  logInfo, panicWith] at heq
            | ok u2 =>
              rcases hm with hsome | ⟨hnone, hgen⟩
              · simp [Manager.init_command, ClientOptions.withNode, ClientOptions.new,
                  ClientOptions.withNodeSyncDisabled, hv, hb, hsome, hst,
                  logInfo, panicWith] at heq
                obtain ⟨ht, -⟩ := heq
                subst ht
                simp
              · simp [Manager.init_command, ClientOptions.withNode, ClientOptions.new,
                  ClientOptions.withNodeSyncDisabled, hv, hb, hnone, hgen, hst,
                  logInfo, panicWith] at heq
                obtain ⟨ht, -⟩ := heq
                subst ht
                simp
          | ledgerNano =>
            rcases hm with hsome | ⟨hnone, hgen⟩
            · simp [Manager.init_command, ClientOptions.withNode, ClientOptions.new,
                ClientOptions.withNodeSyncDisabled, hv, hb, hsome,
                logInfo, panicWith] at heq
            · simp [Manager.init_command, ClientOptions.withNode, ClientOptions.new,
                ClientOptions.withNodeSyncDisabled, hv, hb, hnone, hgen,
                logInfo, panicWith] at heq
          | mnemonicBacked =>
            rcases hm with hsome | ⟨hnone, hgen⟩
            · simp [Manager.init_command, ClientOptions.withNode, ClientOptions.new,
                ClientOptions.withNodeSyncDisabled, hv, hb, hsome,
                logInfo, panicWith] at heq
            · simp [Manager.init_command, ClientOptions.withNode, ClientOptions.new,
                ClientOptions.withNodeSyncDisabled, hv, hb, hnone, hgen,
                logInfo, panicWith] at heq
        cases hmn : mu.mnemonic with
        | some m => exact main m (Or.inl hmn)
        | none =>
          cases hg : env.generateMnemonic with
          | error e =>
            simp [Manager.init_command, ClientOptions.withNode, ClientOptions.new,
              ClientOptions.withNodeSyncDisabled, hv, hb, hmn, hg] at heq
          | ok m => exact main m (Or.inr ⟨hmn, hg⟩)

/-- C9 witness: a LedgerNano-backed call with a supplied mnemonic panics
after logging the mnemonic, at a concrete environment. -/
theorem c9_witness :
    SecretManager.ledgerNano ≠ SecretManager.stronghold ∧
    demoEnv.nodeValidate "http://localhost:14265" = Except.ok () ∧
    demoEnv.builderFinish SecretManager.ledgerNano
        { node := some "http://localhost:14265", nodeSyncDisabled := true } "./storage"
      = Except.ok { id := 0 } ∧
    (Manager.init_command demoEnv SecretManager.ledgerNano "./storage"
        { mnemonic := some "my words", node := none }).2
      = Res.panicked "cli-wallet only supports Stronghold-backed secret managers at the moment." ∧
    Event.log "my words" ∈ (Manager.init_command demoEnv SecretManager.ledgerNano "./storage"
        { mnemonic := some "my words", node := none }).1 := by
  have h := (c9_init_stronghold_gate demoEnv SecretManager.ledgerNano "./storage"
      { mnemonic := some "my words", node := none }).1 "my words" { id := 0 }
      (by decide) rfl rfl (Or.inl rfl)
  exact ⟨by decide, rfl, rfl, h.1, h.2⟩

/-- Every event in an `init_command` trace is one of: the typed builder
request with the given secret manager, options and storage path; the
generate-mnemonic call (only when no mnemonic was supplied); a log line; or
the store-mnemonic request, which occurs only for the Stronghold secret
manager and carries exactly the supplied or generated mnemonic. -/
theorem init_events (env : SdkEnv) (sm : SecretManager) (sp : String) (mu : MnemonicAndUrl) :
    ∀ e ∈ (Manager.init_command env sm sp mu).1,
      e = Event.sdkCall (SdkRequest.builderFinish sm
            { node := some (mu.node.getD "http://localhost:14265"), nodeSyncDisabled := true } sp) ∨
      (e = Event.sdkCall SdkRequest.generateMnemonic ∧ mu.mnemonic = none) ∨
      (∃ m, e = Event.log m) ∨
      (∃ m, e = Event.sdkCall (SdkRequest.storeMnemonic m) ∧ sm = SecretManager.stronghold ∧
        (mu.mnemonic = some m ∨ (mu.mnemonic = none ∧ env.generateMnemonic = Except.ok m))) := by
  intro e he
  cases hv : env.nodeValidate (mu.node.getD "http://localhost:14265") with
  | error e0 =>
    simp [Manager.init_command, ClientOptions.withNode, ClientOptions.new,
      ClientOptions.withNodeSyncDisabled, hv] at he
  | ok u =>
    cases hb : env.builderFinish sm
        { node := some (mu.node.getD "http://localhost:14265"), nodeSyncDisabled := true } sp with
    | error e0 =>
      simp [Manager.init_command, ClientOptions.withNode, ClientOptions.new,
        ClientOptions.withNodeSyncDisabled, hv, hb] at he
      subst he
      exact Or.inl rfl
    | ok mgr =>
      cases hmn : mu.mnemonic with
      | some m0 =>
        cases sm with
        | stronghold =>
          cases hst : env.storeMnemonic m0 with
          | ok u2 =>
            simp [Manager.init_command, ClientOptions.withNode, ClientOptions.new,
              ClientOptions.withNodeSyncDisabled, hv, hb, hmn, hst, logInfo, panicWith] at he
            rcases he with rfl | rfl | rfl | rfl | rfl | rfl
            · exact Or.inl rfl
            · exact Or.inr (Or.inr (Or.inl ⟨_, rfl⟩))
            · exact Or.inr (Or.inr (Or.inl ⟨_, rfl⟩))
            · exact Or.inr (Or.inr (Or.inl ⟨_, rfl⟩))
            · exact Or.inr (Or.inr (Or.inr ⟨m0, rfl, rfl, Or.inl rfl⟩))
            · exact Or.inr (Or.inr (Or.inl ⟨_, rfl⟩))
          | error e0 =>
            simp [Manager.init_command, ClientOptions.withNode, ClientOptions.new,
              ClientOptions.withNodeSyncDisabled, hv, hb, hmn, hst, logInfo, panicWith] at he
            rcases he with rfl | rfl | rfl | rfl | rfl
            · exact Or.inl rfl
            · exact Or.inr (Or.inr (Or.inl ⟨_, rfl⟩))
            · exact Or.inr (Or.inr (Or.inl ⟨_, rfl⟩))
            · exact Or.inr (Or.inr (Or.inl ⟨_, rfl⟩))
            · exact Or.inr (Or.inr (Or.inr ⟨m0, rfl, rfl, Or.inl rfl⟩))
        | ledgerNano =>
          simp [Manager.init_command, ClientOptions.withNode, ClientOptions.new,
            ClientOptions.withNodeSyncDisabled, hv, hb, hmn, logInfo, panicWith] at he
          rcases he with rfl | rfl | rfl | rfl
          · exact Or.inl rfl
          · exact Or.inr (Or.inr (Or.inl ⟨_, rfl⟩))
          · exact Or.inr (Or.inr (Or.inl ⟨_, rfl⟩))
          · exact Or.inr (Or.inr (Or.inl ⟨_, rfl⟩))
        | mnemonicBacked =>
          simp [Manager.init_command, ClientOptions.withNode, ClientOptions.new,
            ClientOptions.withNodeSyncDisabled, hv, hb, hmn, logInfo, panicWith] at he
          rcases he with rfl | rfl | rfl | rfl
          · exact Or.inl rfl
          · exact Or.inr (Or.inr (Or.inl ⟨_, rfl⟩))
          · exact Or.inr (Or.inr (Or.inl ⟨_, rfl⟩))
          · exact Or.inr (Or.inr (Or.inl ⟨_, rfl⟩))
      | none =>
        cases hg : env.generateMnemonic with
        | error e0 =>
          simp [Manager.init_command, ClientOptions.withNode, ClientOptions.new,
            ClientOptions.withNodeSyncDisabled, hv, hb, hmn, hg] at he
          rcases he with rfl | rfl
          · exact Or.inl rfl
          · exact Or.inr (Or.inl ⟨rfl, rfl⟩)
        | ok m0 =>
          cases sm with
          | stronghold =>
            cases hst : env.storeMnemonic m0 with
            | ok u2 =>
              simp [Manager.init_command, ClientOptions.withNode, ClientOptions.new,
                ClientOptions.withNodeSyncDisabled, hv, hb, hmn, hg, hst, logInfo, panicWith] at he
              rcases he with rfl | rfl | rfl | rfl | rfl | rfl | rfl
              · exact Or.inl rfl
              · exact Or.inr (Or.inl ⟨rfl, rfl⟩)
              · exact Or.inr (Or.inr (Or.inl ⟨_, rfl⟩))
              · exact Or.inr (Or.inr (Or.inl ⟨_, rfl⟩))
              · exact Or.inr (Or.inr (Or.inl ⟨_, rfl⟩))
              · exact Or.inr (Or.inr (Or.inr ⟨m0, rfl, rfl, Or.inr ⟨rfl, rfl⟩⟩))
              · exact Or.inr (Or.inr (Or.inl ⟨_, rfl⟩))
            | error e0 =>
              simp [Manager.init_command, ClientOptions.withNode, ClientOptions.new,
                ClientOptions.withNodeSyncDisabled, hv, hb, hmn, hg, hst, logInfo, panicWith] at he
              rcases he with rfl | rfl | rfl | rfl | rfl | rfl
              · exact Or.inl rfl
              · exact Or.inr (Or.inl ⟨rfl, rfl⟩)
              · exact Or.inr (Or.inr (Or.inl ⟨_, rfl⟩))
              · exact Or.inr (Or.inr (Or.inl ⟨_, rfl⟩))
              · exact Or.inr (Or.inr (Or.inl ⟨_, rfl⟩))
              · exact Or.inr (Or.inr (Or.inr ⟨m0, rfl, rfl, Or.inr ⟨rfl, rfl⟩⟩))
          | ledgerNano =>
            simp [Manager.init_command, ClientOptions.withNode, ClientOptions.new,
              ClientOptions.withNodeSyncDisabled, hv, hb, hmn, hg, logInfo, panicWith] at he
            rcases he with rfl | rfl | rfl | rfl | rfl
            · exact Or.inl rfl
            · exact Or.inr (Or.inl ⟨rfl, rfl⟩)
            · exact Or.inr (Or.inr (Or.inl ⟨_, rfl⟩))
            · exact Or.inr (Or.inr (Or.inl ⟨_, rfl⟩))
            · exact Or.inr (Or.inr (Or.inl ⟨_, rfl⟩))
          | mnemonicBacked =>
            simp [Manager.init_command, ClientOptions.withNode, ClientOptions.new,
              ClientOptions.withNodeSyncDisabled, hv, hb, hmn, hg, logInfo, panicWith] at he
            rcases he with rfl | rfl | rfl | rfl | rfl
            · exact Or.inl rfl
            · exact Or.inr (Or.inl ⟨rfl, rfl⟩)
            · exact Or.inr (Or.inr (Or.inl ⟨_, rfl⟩))
            · exact Or.inr (Or.inr (Or.inl ⟨_, rfl⟩))
            · exact Or.inr (Or.inr (Or.inl ⟨_, rfl⟩))

/-- C6: key storage, mnemonic handling, persistence and network interaction
happen only through typed SDK requests carrying the user's data verbatim:
a stored mnemonic is exactly the supplied or SDK-generated one and is stored
only through the Stronghold secret manager; the storage path and secret
manager reach the SDK only inside the typed builder request; the faucet
interaction carries the resolved url and address verbatim; node
configuration goes through the typed client options with the given url. -/
theorem c6_delegation :
    ∀ (env : SdkEnv),
      (∀ sm sp mu m,
        Event.sdkCall (SdkRequest.storeMnemonic m) ∈ (Manager.init_command env sm sp mu).1 →
        sm = SecretManager.stronghold ∧
        (mu.mnemonic = some m ∨ (mu.mnemonic = none ∧ env.generateMnemonic = Except.ok m))) ∧
      (∀ sm sp mu sm2 co p,
        Event.sdkCall (SdkRequest.builderFinish sm2 co p) ∈ (Manager.init_command env sm sp mu).1 →
        sm2 = sm ∧ p = sp ∧
        co = { node := some (mu.node.getD "http://localhost:14265"), nodeSyncDisabled := true }) ∧
      (∀ url a0 u a,
        Event.sdkCall (SdkRequest.requestFundsFromFaucet u a)
            ∈ (Account.faucet_command env url (some a0)).1 →
        u = resolvedFaucetUrl url ∧ a = a0) ∧
      (∀ mgr url co,
        Event.sdkCall (SdkRequest.setClientOptions co) ∈ (Manager.set_node_command env mgr url).1 →
        co = { node := some url, nodeSyncDisabled := true }) := by
  intro env
  refine ⟨?_, ?_, ?_, ?_⟩
  · intro sm sp mu m hmem
    rcases init_events env sm sp mu _ hmem with h | ⟨h, -⟩ | ⟨m2, h⟩ | ⟨m2, h, hsm, hm⟩
    · simp at h
    · simp at h
    · simp at h
    · simp at h
      subst h
      exact ⟨hsm, hm⟩
  · intro sm sp mu sm2 co p hmem
    rcases init_events env sm sp mu _ hmem with h | ⟨h, -⟩ | ⟨m2, h⟩ | ⟨m2, h, -, -⟩
    · simp at h
      exact ⟨h.1, h.2.2, h.2.1⟩
    · simp at h
    · simp at h
    · simp at h
  · intro url a0 u a hmem
    rw [faucet_some_eq] at hmem
    cases hr : env.requestFundsFromFaucet (resolvedFaucetUrl url) a0 <;>
      · simp [hr, logInfo] at hmem
        exact hmem
  · intro mgr url co hmem
    cases hn : env.nodeValidate url with
    | error e =>
      simp [Manager.set_node_command, ClientOptions.withNode, ClientOptions.new,
        ClientOptions.withNodeSyncDisabled, hn] at hmem
    | ok u2 =>
      cases hs : env.setClientOptions { node := some url, nodeSyncDisabled := true } <;>
        · simp [Manager.set_node_command, ClientOptions.withNode, ClientOptions.new,
            ClientOptions.withNodeSyncDisabled, hn, hs] at hmem
          exact hmem

/-- C6 witness: the store-mnemonic clause at a concrete environment — the
supplied mnemonic is stored verbatim through the Stronghold secret manager. -/
theorem c6_witness :
    Event.sdkCall (SdkRequest.storeMnemonic "my words")
        ∈ (Manager.init_command demoEnv SecretManager.stronghold "./storage"
            { mnemonic := some "my words", node := none }).1 ∧
    (({ mnemonic := some "my words", node := none } : MnemonicAndUrl).mnemonic = some "my words" ∨
      (({ mnemonic := some "my words", node := none } : MnemonicAndUrl).mnemonic = none ∧
        demoEnv.generateMnemonic = Except.ok "my words")) := by
  have hmem : Event.sdkCall (SdkRequest.storeMnemonic "my words")
      ∈ (Manager.init_command demoEnv SecretManager.stronghold "./storage"
          { mnemonic := some "my words", node := none }).1 := by decide
  exact ⟨hmem, ((c6_delegation demoEnv).1 SecretManager.stronghold "./storage"
    { mnemonic := some "my words", node := none } "my words" hmem).2⟩

/-- The lexicographic key `(key_index, internal)` used by `print_address`,
encoded as a natural number; the encoding preserves the Rust tuple order. -/
def keyEnc (p : Nat × Bool) : Nat := 2 * p.1 + cond p.2 1 0

theorem keyCompare_eq_enc (a b : Nat × Bool) :
    keyCompare a b = compare (keyEnc a) (keyEnc b) := by
  rcases a with ⟨n1, b1⟩
  rcases b with ⟨n2, b2⟩
  rcases Nat.lt_trichotomy n1 n2 with h | h | h
  · have h1 : compare n1 n2 = Ordering.lt := Nat.compare_eq_lt.mpr h
    have h2 : compare (keyEnc (n1, b1)) (keyEnc (n2, b2)) = Ordering.lt :=
      Nat.compare_eq_lt.mpr (by cases b1 <;> cases b2 <;> simp [keyEnc] <;> omega)
    simp [keyCompare, h1, h2]
  · subst h
    have h1 : compare n1 n1 = Ordering.eq := Nat.compare_eq_eq.mpr rfl
    cases b1 <;> cases b2
    · simp only [keyCompare, h1, boolCompare]
      exact (Nat.compare_eq_eq.mpr rfl).symm
    · simp only [keyCompare, h1, boolCompare]
      exact (Nat.compare_eq_lt.mpr (show 2 * n1 + 0 < 2 * n1 + 1 by omega)).symm
    · simp only [keyCompare, h1, boolCompare]
      exact (Nat.compare_eq_gt.mpr (show 2 * n1 + 0 < 2 * n1 + 1 by omega)).symm
    · simp only [keyCompare, h1, boolCompare]
      exact (Nat.compare_eq_eq.mpr rfl).symm
  · have h1 : compare n1 n2 = Ordering.gt := Nat.compare_eq_gt.mpr h
    have h2 : compare (keyEnc (n1, b1)) (keyEnc (n2, b2)) = Ordering.gt :=
      Nat.compare_eq_gt.mpr (by cases b1 <;> cases b2 <;> simp [keyEnc] <;> omega)
    simp [keyCompare, h1, h2]

/-- Any index returned on the `Ok` path of the binary-search loop points at
an element on which the comparator answered `Equal`. -/
theorem binarySearchGo_sound {α : Type} (f : α → Ordering) (xs : List α) :
    ∀ (fuel left right i : Nat), binarySearchGo f xs fuel left right = Except.ok i →
      ∃ x, xs.get? i = some x ∧ f x = Ordering.eq := by
  intro fuel
  induction fuel with
  | zero =>
    intro left right i h
    simp [binarySearchGo] at h
  | succ fuel ih =>
    intro left right i h
    by_cases hlr : left < right
    · simp only [binarySearchGo, if_pos hlr] at h
      cases hx : xs.get? (left + (right - left) / 2) with
      | none => simp only [hx] at h; cases h
      | some x =>
        simp only [hx] at h
        cases hc : f x with
        | lt => simp only [hc] at h; exact ih _ _ _ h
        | gt => simp only [hc] at h; exact ih _ _ _ h
        | eq =>
          simp only [hc] at h
          cases h
          exact ⟨x, hx, hc⟩
    · simp only [binarySearchGo, if_neg hlr] at h
      cases h

/-- On a list whose `g`-keys are monotone, a window containing an element
with key `n` makes the binary-search loop return `Ok`. -/
theorem binarySearchGo_finds {α : Type} (g : α → Nat) (n : Nat) (xs : List α) :
    ∀ (fuel left right : Nat), right - left ≤ fuel → right ≤ xs.length →
      (∀ i j a b, i ≤ j → xs.get? i = some a → xs.get? j = some b → g a ≤ g b) →
      (∃ k a, left ≤ k ∧ k < right ∧ xs.get? k = some a ∧ g a = n) →
      ∃ j, binarySearchGo (fun x => compare (g x) n) xs fuel left right = Except.ok j := by
  intro fuel
  induction fuel with
  | zero =>
    intro left right hfuel hlen hmono hex
    obtain ⟨k, a, hk1, hk2, -, -⟩ := hex
    omega
  | succ fuel ih =>
    intro left right hfuel hlen hmono hex
    obtain ⟨k, a, hk1, hk2, hka, hgan⟩ := hex
    have hlr : left < right := by omega
    have hmid_lt : left + (right - left) / 2 < right := by omega
    have hmid_len : left + (right - left) / 2 < xs.length := by omega
    have hx : xs.get? (left + (right - left) / 2)
        = some (xs.get ⟨left + (right - left) / 2, hmid_len⟩) := List.get?_eq_get hmid_len
    simp only [binarySearchGo, if_pos hlr, hx]
    cases hc : compare (g (xs.get ⟨left + (right - left) / 2, hmid_len⟩)) n with
    | lt =>
      have hgx : g (xs.get ⟨left + (right - left) / 2, hmid_len⟩) < n := Nat.compare_eq_lt.mp hc
      have hkm : left + (right - left) / 2 < k := by
        by_contra hnk
        push_neg at hnk
        have := hmono k (left + (right - left) / 2) a _ hnk hka hx
        omega
      exact ih (left + (right - left) / 2 + 1) right (by omega) hlen hmono
        ⟨k, a, by omega, hk2, hka, hgan⟩
    | gt =>
      have hgx : n < g (xs.get ⟨left + (right - left) / 2, hmid_len⟩) := Nat.compare_eq_gt.mp hc
      have hkm : k < left + (right - left) / 2 := by
        by_contra hnk
        push_neg at hnk
        have := hmono (left + (right - left) / 2) k _ a hnk hx hka
        omega
      exact ih left (left + (right - left) / 2) (by omega) (by omega) hmono
        ⟨k, a, hk1, hkm, hka, hgan⟩
    | eq => exact ⟨_, rfl⟩

/-- Concrete entries and address for the C5 analysis. -/
def c5eA : AddressWithUnspentOutputs :=
  { bech32 := "rms1qa", keyIndex := 0, internal := false, amount := 7, outputIds := [] }

def c5eB : AddressWithUnspentOutputs :=
  { bech32 := "rms1qb", keyIndex := 1, internal := false, amount := 42, outputIds := [] }

def c5Addr : AccountAddress := { bech32 := "rms1qb", keyIndex := 1, internal := false }

def c5EnvSorted : SdkEnv :=
  { demoEnv with listAddressesWithUnspentOutputs := Except.ok [c5eA, c5eB] }

def c5EnvUnsorted : SdkEnv :=
  { demoEnv with listAddressesWithUnspentOutputs := Except.ok [c5eB, c5eA] }

/-- C5 counterexample: `print_address` is not a direct pass-through — it
performs a local binary search keyed on `(key_index, internal)`, and the
lookup is ordering-dependent: on two SDK responses that are permutations of
one another the command logs different output (the unsorted order makes the
search miss the entry of the printed address, dropping its balance line). -/
theorem c5_counterexample :
    List.Perm [c5eA, c5eB] [c5eB, c5eA] ∧
    Account.print_address c5EnvSorted c5Addr ≠ Account.print_address c5EnvUnsorted c5Addr := by
  constructor
  · exact List.Perm.swap c5eB c5eA []
  · decide

/-- C5 amended: the lookup `print_address` performs is a genuine local
binary search: whenever the SDK returns the addresses-with-unspent-outputs
list sorted by the `(key_index, internal)` key and it contains an entry for
the printed address, the command finds such an entry and logs its balance
and output ids after the address header. -/
theorem c5_amended :
    ∀ (env : SdkEnv) (address : AccountAddress) (awb : List AddressWithUnspentOutputs),
      env.listAddressesWithUnspentOutputs = Except.ok awb →
      List.Pairwise
        (fun x y => keyEnc (x.keyIndex, x.internal) ≤ keyEnc (y.keyIndex, y.internal)) awb →
      (∃ e ∈ awb, e.keyIndex = address.keyIndex ∧ e.internal = address.internal) →
      ∃ (i : Nat) (entry : AddressWithUnspentOutputs),
        awb.get? i = some entry ∧
        entry.keyIndex = address.keyIndex ∧ entry.internal = address.internal ∧
        Account.print_address env address =
          ([Event.sdkCall SdkRequest.listAddressesWithUnspentOutputs,
            Event.log ((if address.internal
                then "Address " ++ toString address.keyIndex ++ ": " ++ address.toBech32
                  ++ "\nChange address"
                else "Address " ++ toString address.keyIndex ++ ": " ++ address.toBech32)
              ++ "\nBalance: " ++ toString entry.amount
              ++ "\nOutputs: " ++ toString entry.outputIds)],
           Res.ok ()) := by
  intro env address awb h hsorted hex
  have hmono : ∀ i j a b, i ≤ j → awb.get? i = some a → awb.get? j = some b →
      keyEnc (a.keyIndex, a.internal) ≤ keyEnc (b.keyIndex, b.internal) := by
    intro i j a b hij ha hb
    rcases Nat.lt_or_ge i j with hlt | hge
    · obtain ⟨hi, hgi⟩ := List.get?_eq_some.mp ha
      obtain ⟨hj, hgj⟩ := List.get?_eq_some.mp hb
      have := List.pairwise_iff_get.mp hsorted ⟨i, hi⟩ ⟨j, hj⟩ hlt
      rw [hgi, hgj] at this
      exact this
    · have hij2 : i = j := by omega
      subst hij2
      rw [ha] at hb
      cases hb
      exact le_refl _
  obtain ⟨e0, he0mem, he0k, he0i⟩ := hex
  obtain ⟨k, hk⟩ := List.get?_of_mem he0mem
  have hklen : k < awb.length := by
    obtain ⟨hklt, -⟩ := List.get?_eq_some.mp hk
    exact hklt
  have hkey : keyEnc (e0.keyIndex, e0.internal) = keyEnc (address.keyIndex, address.internal) := by
    rw [he0k, he0i]
  obtain ⟨j, hj⟩ := binarySearchGo_finds (fun a => keyEnc (a.keyIndex, a.internal))
      (keyEnc (address.keyIndex, address.internal)) awb awb.length 0 awb.length
      (by omega) (le_refl _) hmono ⟨k, e0, Nat.zero_le _, hklen, hk, hkey⟩
  obtain ⟨entry, hentry, hcmp⟩ := binarySearchGo_sound _ awb awb.length 0 awb.length j hj
  have henc := Nat.compare_eq_eq.mp hcmp
  have hkeys : entry.keyIndex = address.keyIndex ∧ entry.internal = address.internal := by
    cases hbi : entry.internal <;> cases hba : address.internal <;>
      simp only [keyEnc, hbi, hba, cond_true, cond_false] at henc <;>
        first
        | exact ⟨by omega, rfl⟩
        | omega
  have hfun : (fun a : AddressWithUnspentOutputs =>
        keyCompare (a.keyIndex, a.internal) (address.keyIndex, address.internal))
      = (fun a : AddressWithUnspentOutputs =>
        compare (keyEnc (a.keyIndex, a.internal)) (keyEnc (address.keyIndex, address.internal))) :=
    funext fun a => keyCompare_eq_enc _ _
  have hbs : binary_search_by awb
      (fun a => keyCompare (a.keyIndex, a.internal) (address.keyIndex, address.internal))
      = Except.ok j := by
    rw [binary_search_by, hfun]
    exact hj
  have hgetD : (awb[j]?).getD default = entry := by
    rw [← List.get?_eq_getElem?, hentry]
    rfl
  refine ⟨j, entry, hentry, hkeys.1, hkeys.2, ?_⟩
  simp [Account.print_address, h, hbs, hgetD, logInfo]

/-- C5 witness: the amended claim at the concrete sorted environment — the
balance of the matching entry is logged. -/
theorem c5_witness :
    c5EnvSorted.listAddressesWithUnspentOutputs = Except.ok [c5eA, c5eB] ∧
    List.Pairwise
      (fun x y => keyEnc (x.keyIndex, x.internal) ≤ keyEnc (y.keyIndex, y.internal))
      [c5eA, c5eB] ∧
    ∃ (i : Nat) (entry : AddressWithUnspentOutputs),
      ([c5eA, c5eB] : List AddressWithUnspentOutputs).get? i = some entry ∧
      entry.keyIndex = c5Addr.keyIndex ∧ entry.internal = c5Addr.internal ∧
      Account.print_address c5EnvSorted c5Addr =
        ([Event.sdkCall SdkRequest.listAddressesWithUnspentOutputs,
          Event.log ((if c5Addr.internal
              then "Address " ++ toString c5Addr.keyIndex ++ ": " ++ c5Addr.toBech32
                ++ "\nChange address"
              else "Address " ++ toString c5Addr.keyIndex ++ ": " ++ c5Addr.toBech32)
            ++ "\nBalance: " ++ toString entry.amount
            ++ "\nOutputs: " ++ toString entry.outputIds)],
         Res.ok ()) :=
  ⟨rfl, by decide,
   c5_amended c5EnvSorted c5Addr [c5eA, c5eB] rfl (by decide) ⟨c5eB, by decide, rfl, rfl⟩⟩
